import Mathlib

/-!
# Tile addressing and the frame loop of `Temp/Main.cpp`

A shallow embedding of `TileSet::GetTile`, `Image::Render` and the frame loop
of `Load()`.

* `uint32_t` values are natural numbers below `2 ^ 32`; every `uint32_t`
  operation is reduced modulo `2 ^ 32` explicitly.
* `int` values (the fields of `SDL_Rect`, the counter `frame`) are integers;
  a conversion of a `uint32_t` into an `int` field is the two's complement
  reinterpretation `toInt`, and the conversion of an `int` into a `uint32_t`
  argument is `toUInt32`.
* Operations whose behaviour the language leaves undefined (division by a
  zero column count, `++frame` at `INT_MAX`) return `none`.
* The renderer is the list of calls it has received, in order.
-/

namespace Sdl

/-! ## Machine integers -/

/-- The largest value of an `int`. -/
def INT_MAX : Int := 2147483647

/-- The value an `int` takes when a `uint32_t` holding `n` is stored into it. -/
def toInt (n : Nat) : Int :=
  if n % 2 ^ 32 < 2 ^ 31 then ((n % 2 ^ 32 : Nat) : Int)
  else ((n % 2 ^ 32 : Nat) : Int) - 2 ^ 32

/-- The value a `uint32_t` parameter takes when it is passed the `int` `i`. -/
def toUInt32 (i : Int) : Nat := (i % 2 ^ 32).toNat

/-! ## `SDL_Rect` and `TileSet` -/

/-- The rectangle of SDL: four `int` fields. -/
structure SDL_Rect where
  x : Int
  y : Int
  w : Int
  h : Int
  deriving DecidableEq, Repr

/-- The fields of `class TileSet` that `GetTile` reads (all `uint32_t`). -/
structure TileSet where
  m_tileWidth : Nat
  m_tileHeight : Nat
  m_columns : Nat
  deriving DecidableEq, Repr

/-- `SDL_Rect TileSet::GetTile(const uint32_t gid)`.
`gid % m_columns` and `gid / m_columns` are undefined for `m_columns == 0`. -/
def TileSet.GetTile (set : TileSet) (gid : Nat) : Option SDL_Rect :=
  if set.m_columns = 0 then none
  else
    some
      { x := toInt (((gid % set.m_columns) * set.m_tileWidth) % 2 ^ 32)
        y := toInt (((gid / set.m_columns) * set.m_tileHeight) % 2 ^ 32)
        h := toInt set.m_tileHeight
        w := toInt set.m_tileWidth }

/-- The sheet geometry the frame loop assigns to its `TileSet set` in every
iteration: `m_tileHeight = 70`, `m_tileWidth = 70`, `m_columns = 3`. -/
def walkSheet : TileSet := { m_tileWidth := 70, m_tileHeight := 70, m_columns := 3 }

/-! ## The renderer -/

/-- A call the renderer passes on to SDL. -/
inductive RenderCall where
  | SetRenderDrawColor (red green blue alpha : Nat)
  | RenderClear
  | RenderCopy (pSrcRect pDstRect : Option SDL_Rect)
  | RenderPresent
  deriving DecidableEq, Repr

/-- The renderer, seen through the calls it has made so far, oldest first. -/
structure Renderer where
  calls : List RenderCall
  deriving DecidableEq, Repr

/-- `void Renderer::SetColour(red, green, blue, alpha)`. -/
def Renderer.SetColour (renderer : Renderer) (red green blue alpha : Nat) : Renderer :=
  { calls := renderer.calls ++ [RenderCall.SetRenderDrawColor red green blue alpha] }

/-- `void Renderer::Clear()`. -/
def Renderer.Clear (renderer : Renderer) : Renderer :=
  { calls := renderer.calls ++ [RenderCall.RenderClear] }

/-- `void Renderer::Copy(Surface &surface, SDL_Rect *pSrcRet, SDL_Rect *pDstRect)`. -/
def Renderer.Copy (renderer : Renderer) (pSrcRet pDstRect : Option SDL_Rect) : Renderer :=
  { calls := renderer.calls ++ [RenderCall.RenderCopy pSrcRet pDstRect] }

/-- `void Renderer::Present()`. -/
def Renderer.Present (renderer : Renderer) : Renderer :=
  { calls := renderer.calls ++ [RenderCall.RenderPresent] }

/-- The `uint16_t` width and height an `Image` inherits from `Surface`. -/
structure Image where
  m_width : Nat
  m_height : Nat
  deriving DecidableEq, Repr

/-- `void Image::Render(Renderer &renderer, const uint32_t x, const uint32_t y,
SDL_Rect *pClip)`: the quad starts as `{ x, y, GetWidth(), GetHeight() }` and
takes the clip's `w` and `h` when a clip is given. -/
def Image.Render (image : Image) (renderer : Renderer) (x y : Nat)
    (pClip : Option SDL_Rect) : Renderer :=
  let renderQuad : SDL_Rect :=
    { x := toInt x, y := toInt y, w := (image.m_width : Int), h := (image.m_height : Int) }
  let renderQuad : SDL_Rect :=
    match pClip with
    | some clip => { renderQuad with w := clip.w, h := clip.h }
    | none => renderQuad
  renderer.Copy pClip (some renderQuad)

/-! ## Events -/

/-- Event type `SDL_QUIT` of SDL2. -/
def SDL_QUIT : Nat := 0x100

/-- Event type `SDL_KEYDOWN` of SDL2. -/
def SDL_KEYDOWN : Nat := 0x300

/-- Key code `SDLK_RIGHT` of SDL2. -/
def SDLK_RIGHT : Int := 1073741903

/-- Key code `SDLK_LEFT` of SDL2. -/
def SDLK_LEFT : Int := 1073741904

/-- Key code `SDLK_DOWN` of SDL2. -/
def SDLK_DOWN : Int := 1073741905

/-- Key code `SDLK_UP` of SDL2. -/
def SDLK_UP : Int := 1073741906

/-- What the loop reads of an `SDL_Event`: `event.type` and
`event.key.keysym.sym`. -/
structure SDL_Event where
  type : Nat
  sym : Int
  deriving DecidableEq, Repr

/-- A quit request. -/
def quitEvent : SDL_Event := { type := SDL_QUIT, sym := 0 }

/-- A key-down of the key `sym`. -/
def keyDown (sym : Int) : SDL_Event := { type := SDL_KEYDOWN, sym := sym }

/-- Whether the event is a key-down of `SDLK_DOWN`, the key that advances. -/
def isAdvance (event : SDL_Event) : Bool :=
  decide (SDL_QUIT ≠ event.type) && decide (SDL_KEYDOWN = event.type)
    && decide (event.sym = SDLK_DOWN)

/-- Whether the event is a quit request. -/
def isQuit (event : SDL_Event) : Bool := decide (SDL_QUIT = event.type)

/-- Number of advancing key-downs in a list of events. -/
def advances (events : List SDL_Event) : Nat := (events.filter isAdvance).length

/-! ## The frame loop of `Load()` -/

/-- The variables of `Load()` the loop changes: `int frame`, `uint32_t pos`,
`bool shouldQuit`. -/
structure LoopState where
  frame : Int
  pos : Nat
  shouldQuit : Bool
  deriving DecidableEq, Repr

/-- The state before the first iteration: `frame = 0`, `pos = 0`,
`shouldQuit = false`. -/
def initialState : LoopState := { frame := 0, pos := 0, shouldQuit := false }

/-- The body of `while (0 != SDL_PollEvent(&event))` for one polled event.
`++frame` is undefined at `INT_MAX`. -/
def handleEvent (st : LoopState) (event : SDL_Event) : Option LoopState :=
  if SDL_QUIT = event.type then some { st with shouldQuit := true }
  else if SDL_KEYDOWN = event.type then
    if event.sym = SDLK_UP then some st
    else if event.sym = SDLK_DOWN then
      if st.frame < INT_MAX then
        some { st with frame := st.frame + 1, pos := (st.pos + 10) % 2 ^ 32 }
      else none
    else if event.sym = SDLK_LEFT then some st
    else if event.sym = SDLK_RIGHT then some st
    else some st
  else some st

/-- The loop `while (0 != SDL_PollEvent(&event))`: the pending events are
handled one after the other until none is left. -/
def pollEvents (st : LoopState) : List SDL_Event → Option LoopState
  | [] => some st
  | event :: events =>
    match handleEvent st event with
    | none => none
    | some st1 => pollEvents st1 events

/-- The tile the loop draws for a frame: `int tile = frame; if (1 == tile)
tile = 2;`. -/
def tile (frame : Int) : Int := if 1 = frame then 2 else frame

/-- The drawing part of an iteration: `SetColour`, `Clear`, `GetTile`,
`Render`, `Present`. -/
def draw (tileSet : Image) (renderer : Renderer) (st : LoopState) : Option Renderer :=
  let renderer := renderer.SetColour 0xFF 0xaa 0xFF 0x10
  let renderer := renderer.Clear
  match walkSheet.GetTile (toUInt32 (tile st.frame)) with
  | none => none
  | some rect =>
    let renderer := tileSet.Render renderer 0 st.pos (some rect)
    some renderer.Present

/-- The check after the drawing: `if (frame >= 2) { frame = 0; }`. -/
def cycle (st : LoopState) : LoopState :=
  if st.frame ≥ 2 then { st with frame := 0 } else st

/-- One iteration of `while (!shouldQuit)`, on the events pending when it
starts polling. -/
def iteration (tileSet : Image) (renderer : Renderer) (st : LoopState)
    (events : List SDL_Event) : Option (LoopState × Renderer) :=
  match pollEvents st events with
  | none => none
  | some st1 =>
    match draw tileSet renderer st1 with
    | none => none
    | some renderer1 => some (cycle st1, renderer1)

/-- The loop `while (!shouldQuit)`, run on the event batches of its
successive iterations until `shouldQuit` holds or the batches are used up. -/
def loop (tileSet : Image) (renderer : Renderer) (st : LoopState) :
    List (List SDL_Event) → Option (LoopState × Renderer)
  | [] => some (st, renderer)
  | events :: later =>
    if st.shouldQuit then some (st, renderer)
    else
      match iteration tileSet renderer st events with
      | none => none
      | some (st1, renderer1) => loop tileSet renderer1 st1 later

/-- Whether a call of the renderer is a draw call (`SDL_RenderCopy`). -/
def isDrawCall : RenderCall → Bool
  | RenderCall.RenderCopy _ _ => true
  | _ => false

/-- Number of draw calls among the calls of a renderer. -/
def drawCalls (calls : List RenderCall) : Nat := (calls.filter isDrawCall).length

/-- The four calls an iteration adds to the renderer when it draws the clip
`rect` with the scroll offset `pos`. -/
def frameCalls (rect : SDL_Rect) (pos : Nat) : List RenderCall :=
  [RenderCall.SetRenderDrawColor 0xFF 0xAA 0xFF 0x10,
   RenderCall.RenderClear,
   RenderCall.RenderCopy (some rect)
     (some { x := 0, y := toInt pos, w := rect.w, h := rect.h }),
   RenderCall.RenderPresent]

/-! ## Basic facts on the conversions -/

theorem toInt_of_lt {n : Nat} (h : n < 2 ^ 31) : toInt n = (n : Int) := by
  have h32 : n % 2 ^ 32 = n := Nat.mod_eq_of_lt (by omega)
  unfold toInt
  rw [h32, if_pos h]

theorem toInt_le (n : Nat) : toInt n ≤ (n : Int) := by
  have hle : n % 2 ^ 32 ≤ n := Nat.mod_le _ _
  unfold toInt
  split <;> omega

theorem GetTile_eq (set : TileSet) (gid : Nat) (hc : 1 ≤ set.m_columns) :
    set.GetTile gid = some
      { x := toInt (((gid % set.m_columns) * set.m_tileWidth) % 2 ^ 32)
        y := toInt (((gid / set.m_columns) * set.m_tileHeight) % 2 ^ 32)
        h := toInt set.m_tileHeight
        w := toInt set.m_tileWidth } := by
  have hne : set.m_columns ≠ 0 := by omega
  unfold TileSet.GetTile
  rw [if_neg hne]

theorem handleEvent_eq (st : LoopState) (event : SDL_Event) :
    handleEvent st event =
      if isAdvance event = true then
        (if st.frame < INT_MAX then
          some { st with frame := st.frame + 1, pos := (st.pos + 10) % 2 ^ 32 }
        else none)
      else if isQuit event = true then some { st with shouldQuit := true }
      else some st := by
  unfold handleEvent isAdvance isQuit
  by_cases hq : SDL_QUIT = event.type
  · simp [hq]
  · by_cases hk : SDL_KEYDOWN = event.type
    · by_cases hd : event.sym = SDLK_DOWN
      · have hu : ¬ (SDLK_DOWN = SDLK_UP) := by decide
        simp [hq, hk, hd, hu]
      · simp [hq, hk, hd]
    · simp [hq, hk]

theorem advances_cons (event : SDL_Event) (events : List SDL_Event) :
    advances (event :: events)
      = (if isAdvance event = true then 1 else 0) + advances events := by
  unfold advances
  by_cases h : isAdvance event = true
  · simp [List.filter_cons, h]; omega
  · simp [List.filter_cons, h]

theorem isQuit_of_isAdvance {event : SDL_Event} (h : isAdvance event = true) :
    isQuit event = false := by
  unfold isAdvance at h
  unfold isQuit
  simp at h
  simp [h.1.1]

/-- What the polling loop has done when it returns. -/
theorem pollEvents_some {events : List SDL_Event} {st st1 : LoopState}
    (h : pollEvents st events = some st1) :
    st1.frame = st.frame + (advances events : Int) ∧
    st1.pos = (if advances events = 0 then st.pos
      else (st.pos + 10 * advances events) % 2 ^ 32) ∧
    st1.shouldQuit = (st.shouldQuit || events.any isQuit) := by
  induction events generalizing st with
  | nil =>
    simp only [pollEvents, Option.some.injEq] at h
    subst h
    simp [advances]
  | cons event events ih =>
    rw [advances_cons]
    unfold pollEvents at h
    rw [handleEvent_eq] at h
    by_cases ha : isAdvance event = true
    · have hq := isQuit_of_isAdvance ha
      rw [if_pos ha] at h
      by_cases hf : st.frame < INT_MAX
      · rw [if_pos hf] at h
        obtain ⟨h1, h2, h3⟩ := ih h
        refine ⟨?_, ?_, ?_⟩
        · rw [h1, if_pos ha]; push_cast; ring
        · rw [h2, if_pos ha]
          by_cases h0 : advances events = 0
          · simp [h0]
          · rw [if_neg h0, if_neg (by omega)]
            show ((st.pos + 10) % 2 ^ 32 + 10 * advances events) % 2 ^ 32 = _
            omega
        · rw [h3]; simp [hq]
      · rw [if_neg hf] at h
        cases h
    · rw [if_neg ha] at h
      by_cases hq : isQuit event = true
      · rw [if_pos hq] at h
        obtain ⟨h1, h2, h3⟩ := ih h
        refine ⟨?_, ?_, ?_⟩
        · rw [h1, if_neg ha]; simp
        · rw [h2, if_neg ha]; simp
        · rw [h3]; simp [hq]
      · rw [if_neg hq] at h
        obtain ⟨h1, h2, h3⟩ := ih h
        refine ⟨?_, ?_, ?_⟩
        · rw [h1, if_neg ha]; simp
        · rw [h2, if_neg ha]; simp
        · rw [h3]; simp [hq]

/-- The polling loop returns unless `frame` would pass `INT_MAX`. -/
theorem pollEvents_isSome (events : List SDL_Event) (st : LoopState)
    (h : st.frame + (advances events : Int) ≤ INT_MAX) :
    ∃ st1, pollEvents st events = some st1 := by
  induction events generalizing st with
  | nil => exact ⟨st, rfl⟩
  | cons event events ih =>
    rw [advances_cons] at h
    unfold pollEvents
    rw [handleEvent_eq]
    by_cases ha : isAdvance event = true
    · rw [if_pos ha] at h
      have hf : st.frame < INT_MAX := by push_cast at h; omega
      rw [if_pos ha, if_pos hf]
      apply ih
      show st.frame + 1 + (advances events : Int) ≤ INT_MAX
      push_cast at h; omega
    · rw [if_neg ha] at h
      rw [if_neg ha]
      by_cases hq : isQuit event = true
      · rw [if_pos hq]
        apply ih
        show st.frame + (advances events : Int) ≤ INT_MAX
        push_cast at h; omega
      · rw [if_neg hq]
        apply ih
        push_cast at h; omega

/-- The drawing part always succeeds and adds four calls. -/
theorem draw_eq (tileSet : Image) (renderer : Renderer) (st : LoopState) :
    ∃ rect, walkSheet.GetTile (toUInt32 (tile st.frame)) = some rect ∧
      draw tileSet renderer st = some
        { calls := renderer.calls ++ frameCalls rect st.pos } := by
  have hrect := GetTile_eq walkSheet (toUInt32 (tile st.frame)) (by decide)
  refine ⟨_, hrect, ?_⟩
  unfold draw
  rw [hrect]
  simp [Image.Render, Renderer.SetColour, Renderer.Clear, Renderer.Copy,
    Renderer.Present, toInt, frameCalls]

/-- An iteration whose polling loop returns `st1` draws for `st1` and ends
with the wrap check on `st1`. -/
theorem iteration_of_poll (tileSet : Image) (renderer : Renderer)
    {st st1 : LoopState} {events : List SDL_Event}
    (hp : pollEvents st events = some st1) :
    ∃ rect, walkSheet.GetTile (toUInt32 (tile st1.frame)) = some rect ∧
      iteration tileSet renderer st events
        = some (cycle st1, { calls := renderer.calls ++ frameCalls rect st1.pos }) := by
  obtain ⟨rect, hrect, hdraw⟩ := draw_eq tileSet renderer st1
  refine ⟨rect, hrect, ?_⟩
  unfold iteration
  rw [hp]
  simp only [hdraw]

/-- An iteration that returns has polled its events and drawn. -/
theorem iteration_some {tileSet : Image} {renderer renderer1 : Renderer}
    {st st2 : LoopState} {events : List SDL_Event}
    (h : iteration tileSet renderer st events = some (st2, renderer1)) :
    ∃ st1 rect, pollEvents st events = some st1 ∧
      walkSheet.GetTile (toUInt32 (tile st1.frame)) = some rect ∧
      st2 = cycle st1 ∧
      renderer1 = { calls := renderer.calls ++ frameCalls rect st1.pos } := by
  cases hp : pollEvents st events with
  | none =>
    unfold iteration at h
    rw [hp] at h
    cases h
  | some st1 =>
    obtain ⟨rect, hrect, hit⟩ := iteration_of_poll tileSet renderer hp
    rw [hit] at h
    simp only [Option.some.injEq, Prod.mk.injEq] at h
    exact ⟨st1, rect, rfl, hrect, h.1.symm, h.2.symm⟩

theorem isAdvance_of_keyDown {event : SDL_Event} (hk : SDL_KEYDOWN = event.type)
    (hd : event.sym = SDLK_DOWN) : isAdvance event = true := by
  have hq : SDL_QUIT ≠ event.type := by
    rw [← hk]; decide
  unfold isAdvance
  simp [hq, hk, hd]

theorem advances_of_quit {event : SDL_Event} (hq : SDL_QUIT = event.type)
    (events : List SDL_Event) : advances (event :: events) = advances events := by
  have ha : ¬ (isAdvance event = true) := by
    unfold isAdvance
    simp [hq]
  rw [advances_cons, if_neg ha]
  omega

theorem cycle_pos (st : LoopState) : (cycle st).pos = st.pos := by
  unfold cycle
  split <;> rfl

theorem cycle_shouldQuit (st : LoopState) : (cycle st).shouldQuit = st.shouldQuit := by
  unfold cycle
  split <;> rfl

theorem cycle_frame (st : LoopState) (h : 0 ≤ st.frame) :
    (cycle st).frame = 0 ∨ (cycle st).frame = 1 := by
  unfold cycle
  by_cases h2 : st.frame ≥ 2
  · rw [if_pos h2]; left; rfl
  · rw [if_neg h2]
    have h3 : st.frame = 0 ∨ st.frame = 1 := by omega
    exact h3

/-- An iteration started with a non-negative frame index and a 32-bit offset
ends with the frame index 0 or 1 and a 32-bit offset. -/
theorem iteration_inv {tileSet : Image} {renderer renderer1 : Renderer}
    {st st2 : LoopState} {events : List SDL_Event}
    (h : iteration tileSet renderer st events = some (st2, renderer1))
    (h0 : 0 ≤ st.frame) (hpos : st.pos < 2 ^ 32) :
    (st2.frame = 0 ∨ st2.frame = 1) ∧ st2.pos < 2 ^ 32 := by
  obtain ⟨st1, rect, hp, -, hst2, -⟩ := iteration_some h
  obtain ⟨h1, h2, -⟩ := pollEvents_some hp
  subst hst2
  refine ⟨cycle_frame st1 (by rw [h1]; omega), ?_⟩
  rw [cycle_pos, h2]
  split
  · exact hpos
  · exact Nat.mod_lt _ (by norm_num)

/-- The frame index is 0 or 1 and the offset is a 32-bit value whenever the
loop is between two iterations. -/
theorem loop_inv (tileSet : Image) (batches : List (List SDL_Event)) :
    ∀ (renderer renderer1 : Renderer) (st st2 : LoopState),
      loop tileSet renderer st batches = some (st2, renderer1) →
      (st.frame = 0 ∨ st.frame = 1) → st.pos < 2 ^ 32 →
      (st2.frame = 0 ∨ st2.frame = 1) ∧ st2.pos < 2 ^ 32 := by
  induction batches with
  | nil =>
    intro renderer renderer1 st st2 h hf hpos
    simp only [loop, Option.some.injEq, Prod.mk.injEq] at h
    rw [← h.1]
    exact ⟨hf, hpos⟩
  | cons events later ih =>
    intro renderer renderer1 st st2 h hf hpos
    unfold loop at h
    by_cases hq : st.shouldQuit = true
    · rw [if_pos hq] at h
      simp only [Option.some.injEq, Prod.mk.injEq] at h
      rw [← h.1]
      exact ⟨hf, hpos⟩
    · rw [if_neg hq] at h
      cases hit : iteration tileSet renderer st events with
      | none =>
        rw [hit] at h
        cases h
      | some res =>
        obtain ⟨st1, r1⟩ := res
        rw [hit] at h
        have hinv := iteration_inv hit (by omega) hpos
        exact ih r1 renderer1 st1 st2 h hinv.1 hinv.2

/-- A run in which no iteration drains more than one `SDLK_DOWN` key-down
never overflows `frame`: the loop returns. -/
theorem loop_isSome_of_single (tileSet : Image) (batches : List (List SDL_Event)) :
    (∀ events ∈ batches, advances events ≤ 1) →
    ∀ (renderer : Renderer) (st : LoopState),
      (st.frame = 0 ∨ st.frame = 1) → st.pos < 2 ^ 32 →
      ∃ st2 renderer1, loop tileSet renderer st batches = some (st2, renderer1) := by
  induction batches with
  | nil =>
    intro _ renderer st _ _
    exact ⟨st, renderer, rfl⟩
  | cons events later ih =>
    intro hb renderer st hf hpos
    unfold loop
    by_cases hq : st.shouldQuit = true
    · rw [if_pos hq]
      exact ⟨st, renderer, rfl⟩
    · rw [if_neg hq]
      have h1 : advances events ≤ 1 := hb events (List.mem_cons_self _ _)
      obtain ⟨st1, hp⟩ := pollEvents_isSome events st (by
        unfold INT_MAX
        omega)
      obtain ⟨rect, -, hit⟩ := iteration_of_poll tileSet renderer hp
      have hinv := iteration_inv hit (by omega) hpos
      rw [hit]
      exact ih (fun evs hevs => hb evs (List.mem_cons_of_mem _ hevs)) _ _ hinv.1 hinv.2

/-- The state after `n` iterations that each drain one `SDLK_DOWN` key-down. -/
theorem loop_replicate_advance (tileSet : Image) (n : Nat) :
    ∀ (renderer : Renderer) (frame : Int) (pos : Nat),
      (frame = 0 ∨ frame = 1) → pos < 2 ^ 32 →
      ∃ renderer1,
        loop tileSet renderer { frame := frame, pos := pos, shouldQuit := false }
            (List.replicate n [keyDown SDLK_DOWN])
          = some ({ frame := (frame + (n : Int)) % 2, pos := (pos + 10 * n) % 2 ^ 32,
                    shouldQuit := false }, renderer1) := by
  induction n with
  | zero =>
    intro renderer frame pos hf hpos
    refine ⟨renderer, ?_⟩
    have h1 : (frame + ((0 : Nat) : Int)) % 2 = frame := by omega
    have h2 : (pos + 10 * 0) % 2 ^ 32 = pos := by omega
    rw [h1, h2]
    rfl
  | succ n ih =>
    intro renderer frame pos hf hpos
    have hp : pollEvents { frame := frame, pos := pos, shouldQuit := false }
        [keyDown SDLK_DOWN]
        = some { frame := frame + 1, pos := (pos + 10) % 2 ^ 32, shouldQuit := false } := by
      have ha : isAdvance (keyDown SDLK_DOWN) = true := by decide
      have hlt : frame < INT_MAX := by
        unfold INT_MAX
        omega
      unfold pollEvents
      rw [handleEvent_eq, if_pos ha, if_pos hlt]
      rfl
    obtain ⟨rect, -, hit⟩ := iteration_of_poll tileSet renderer hp
    have hcyc : cycle { frame := frame + 1, pos := (pos + 10) % 2 ^ 32, shouldQuit := false }
        = { frame := (frame + 1) % 2, pos := (pos + 10) % 2 ^ 32, shouldQuit := false } := by
      unfold cycle
      rcases hf with hf | hf
      · subst hf
        rfl
      · subst hf
        rfl
    rw [hcyc] at hit
    have hf1 : (frame + 1) % 2 = 0 ∨ (frame + 1) % 2 = 1 := by omega
    have hpos1 : (pos + 10) % 2 ^ 32 < 2 ^ 32 := Nat.mod_lt _ (by norm_num)
    obtain ⟨renderer1, hloop⟩ := ih
      { calls := renderer.calls ++ frameCalls rect ((pos + 10) % 2 ^ 32) }
      ((frame + 1) % 2) ((pos + 10) % 2 ^ 32) hf1 hpos1
    refine ⟨renderer1, ?_⟩
    have e1 : ((frame + 1) % 2 + (n : Int)) % 2 = (frame + ((n + 1 : Nat) : Int)) % 2 := by
      push_cast
      omega
    have e2 : ((pos + 10) % 2 ^ 32 + 10 * n) % 2 ^ 32 = (pos + 10 * (n + 1)) % 2 ^ 32 := by
      omega
    rw [e1, e2] at hloop
    rw [List.replicate_succ]
    unfold loop
    rw [if_neg (by simp), hit]
    exact hloop

/-! ## Tile addressing -/

/-- C1 (as amended): for every tile id and every geometry with at least one
column `GetTile` returns a rectangle, and each field has the value the
formula gives whenever that value fits an `int`: `x = (gid mod columns) *
tileWidth`, `y = (gid div columns) * tileHeight`, `w = tileWidth`,
`h = tileHeight`. For the 70 x 70 x 3 sheet, tile 0 is `{0, 0, 70, 70}` and
tile 4 is `{70, 70, 70, 70}`. -/
theorem GetTile_formula (set : TileSet) (gid : Nat) (hc : 1 ≤ set.m_columns) :
    (∃ r, set.GetTile gid = some r ∧
      ((gid % set.m_columns) * set.m_tileWidth < 2 ^ 31 →
        r.x = (((gid % set.m_columns) * set.m_tileWidth : Nat) : Int)) ∧
      ((gid / set.m_columns) * set.m_tileHeight < 2 ^ 31 →
        r.y = (((gid / set.m_columns) * set.m_tileHeight : Nat) : Int)) ∧
      (set.m_tileWidth < 2 ^ 31 → r.w = (set.m_tileWidth : Int)) ∧
      (set.m_tileHeight < 2 ^ 31 → r.h = (set.m_tileHeight : Int))) ∧
    walkSheet.GetTile 0 = some { x := 0, y := 0, w := 70, h := 70 } ∧
    walkSheet.GetTile 4 = some { x := 70, y := 70, w := 70, h := 70 } := by
  refine ⟨?_, by decide, by decide⟩
  refine ⟨_, GetTile_eq set gid hc, ?_, ?_, ?_, ?_⟩
  · intro h
    have h32 : (gid % set.m_columns) * set.m_tileWidth % 2 ^ 32
        = (gid % set.m_columns) * set.m_tileWidth := Nat.mod_eq_of_lt (by omega)
    show toInt _ = _
    rw [h32, toInt_of_lt h]
  · intro h
    have h32 : (gid / set.m_columns) * set.m_tileHeight % 2 ^ 32
        = (gid / set.m_columns) * set.m_tileHeight := Nat.mod_eq_of_lt (by omega)
    show toInt _ = _
    rw [h32, toInt_of_lt h]
  · intro h
    exact toInt_of_lt h
  · intro h
    exact toInt_of_lt h

/-- The hypotheses of `GetTile_formula` hold for the loop's sheet and tile 4,
where the rectangle is `{70, 70, 70, 70}`. -/
theorem GetTile_formula_witness :
    1 ≤ walkSheet.m_columns ∧
    (4 % walkSheet.m_columns) * walkSheet.m_tileWidth < 2 ^ 31 ∧
    (4 / walkSheet.m_columns) * walkSheet.m_tileHeight < 2 ^ 31 ∧
    walkSheet.m_tileWidth < 2 ^ 31 ∧ walkSheet.m_tileHeight < 2 ^ 31 ∧
    ∃ r, walkSheet.GetTile 4 = some r ∧
      r.x = (((4 % walkSheet.m_columns) * walkSheet.m_tileWidth : Nat) : Int) ∧
      r.y = (((4 / walkSheet.m_columns) * walkSheet.m_tileHeight : Nat) : Int) ∧
      r.w = (walkSheet.m_tileWidth : Int) ∧ r.h = (walkSheet.m_tileHeight : Int) := by
  refine ⟨by decide, by decide, by decide, by decide, by decide, ?_⟩
  obtain ⟨⟨r, hr, hx, hy, hw, hh⟩, -⟩ := GetTile_formula walkSheet 4 (by decide)
  exact ⟨r, hr, hx (by decide), hy (by decide), hw (by decide), hh (by decide)⟩

/-- C1 fails as stated: with `tileWidth = 65536` and `columnCount = 65537`
tile 65536 lies in column 65536, the formula gives `x = 65536 * 65536 =
4294967296`, and `GetTile` returns `x = 0`, the product modulo `2 ^ 32`. -/
theorem GetTile_formula_overflow :
    (1 ≤ (65537 : Nat)) ∧
    TileSet.GetTile { m_tileWidth := 65536, m_tileHeight := 70, m_columns := 65537 } 65536
      = some { x := 0, y := 0, w := 65536, h := 70 } ∧
    (0 : Int) ≠ (((65536 % 65537) * 65536 : Nat) : Int) := by
  decide

/-- C2 (as amended): for every tile id and every geometry with at least one
column, the rectangle `GetTile` returns has `x < tileWidth * columnCount`
(exact product) when `tileWidth > 0`, `x mod tileWidth = 0` when
`(gid mod columnCount) * tileWidth` fits an `int`, and `y mod tileHeight = 0`
when `(gid div columnCount) * tileHeight` fits an `int`. -/
theorem GetTile_bounds (set : TileSet) (gid : Nat) (hc : 1 ≤ set.m_columns) :
    ∃ r, set.GetTile gid = some r ∧
      (0 < set.m_tileWidth → r.x < ((set.m_tileWidth * set.m_columns : Nat) : Int)) ∧
      ((gid % set.m_columns) * set.m_tileWidth < 2 ^ 31 →
        r.x % (set.m_tileWidth : Int) = 0) ∧
      ((gid / set.m_columns) * set.m_tileHeight < 2 ^ 31 →
        r.y % (set.m_tileHeight : Int) = 0) := by
  refine ⟨_, GetTile_eq set gid hc, ?_, ?_, ?_⟩
  · intro hw
    show toInt _ < _
    have h1 := toInt_le (((gid % set.m_columns) * set.m_tileWidth) % 2 ^ 32)
    have h2 : ((gid % set.m_columns) * set.m_tileWidth) % 2 ^ 32
        ≤ (gid % set.m_columns) * set.m_tileWidth := Nat.mod_le _ _
    have h3 : gid % set.m_columns < set.m_columns := Nat.mod_lt _ (by omega)
    have h4 : (gid % set.m_columns) * set.m_tileWidth
        < set.m_columns * set.m_tileWidth := Nat.mul_lt_mul_of_pos_right h3 hw
    have h5 : set.m_tileWidth * set.m_columns = set.m_columns * set.m_tileWidth :=
      Nat.mul_comm _ _
    have h6 : ((((gid % set.m_columns) * set.m_tileWidth) % 2 ^ 32 : Nat) : Int)
        < ((set.m_tileWidth * set.m_columns : Nat) : Int) := by
      apply Int.ofNat_lt.mpr
      omega
    omega
  · intro h
    have h32 : (gid % set.m_columns) * set.m_tileWidth % 2 ^ 32
        = (gid % set.m_columns) * set.m_tileWidth := Nat.mod_eq_of_lt (by omega)
    show toInt _ % _ = 0
    rw [h32, toInt_of_lt h]
    push_cast
    exact Int.mul_emod_left _ _
  · intro h
    have h32 : (gid / set.m_columns) * set.m_tileHeight % 2 ^ 32
        = (gid / set.m_columns) * set.m_tileHeight := Nat.mod_eq_of_lt (by omega)
    show toInt _ % _ = 0
    rw [h32, toInt_of_lt h]
    push_cast
    exact Int.mul_emod_left _ _

/-- The hypotheses of `GetTile_bounds` hold for the loop's sheet and tile 4,
whose `x = 70` is below 210 and whose `x` and `y` are multiples of 70. -/
theorem GetTile_bounds_witness :
    1 ≤ walkSheet.m_columns ∧ 0 < walkSheet.m_tileWidth ∧
    (4 % walkSheet.m_columns) * walkSheet.m_tileWidth < 2 ^ 31 ∧
    (4 / walkSheet.m_columns) * walkSheet.m_tileHeight < 2 ^ 31 ∧
    ∃ r, walkSheet.GetTile 4 = some r ∧
      r.x < ((walkSheet.m_tileWidth * walkSheet.m_columns : Nat) : Int) ∧
      r.x % (walkSheet.m_tileWidth : Int) = 0 ∧
      r.y % (walkSheet.m_tileHeight : Int) = 0 := by
  refine ⟨by decide, by decide, by decide, by decide, ?_⟩
  obtain ⟨r, hr, h1, h2, h3⟩ := GetTile_bounds walkSheet 4 (by decide)
  exact ⟨r, hr, h1 (by decide), h2 (by decide), h3 (by decide)⟩

/-- C2 fails as stated. With `tileWidth = 3` and `columnCount = 2147483648`
tile 2147483647 has `x = (2147483647 * 3) mod 2 ^ 32 = 2147483645`, which is
not a multiple of 3. With `tileWidth = 0` and one column, tile 0 has `x = 0`,
which is not below `tileWidth * columnCount = 0`. -/
theorem GetTile_bounds_overflow :
    (1 ≤ (2147483648 : Nat) ∧
      TileSet.GetTile { m_tileWidth := 3, m_tileHeight := 1, m_columns := 2147483648 }
        2147483647 = some { x := 2147483645, y := 0, w := 3, h := 1 } ∧
      (2147483645 : Int) % ((3 : Nat) : Int) ≠ 0) ∧
    (1 ≤ (1 : Nat) ∧
      TileSet.GetTile { m_tileWidth := 0, m_tileHeight := 70, m_columns := 1 } 0
        = some { x := 0, y := 0, w := 0, h := 70 } ∧
      ¬ ((0 : Int) < ((0 * 1 : Nat) : Int))) := by
  decide

/-! ## The animation cycle -/

/-- C3 (as amended): starting from frame index 0, three successive iterations
that each drain exactly one `SDLK_DOWN` key-down leave the frame index at 1,
0 and 1 when they end, and read it as 1, 2 and 1 for their draw: the check
`frame >= 2` puts the index back to 0 at the end of the iteration in which it
reaches 2. -/
theorem three_advances (tileSet : Image) (renderer : Renderer) :
    List.map (fun n => (loop tileSet renderer initialState
        (List.replicate n [keyDown SDLK_DOWN])).map (fun p => p.1.frame)) [1, 2, 3]
      = [some 1, some 0, some 1] ∧
    List.map (fun n => ((loop tileSet renderer initialState
        (List.replicate n [keyDown SDLK_DOWN])).bind
          (fun p => pollEvents p.1 [keyDown SDLK_DOWN])).map (fun st => st.frame)) [0, 1, 2]
      = [some 1, some 2, some 1] :=
  ⟨rfl, rfl⟩

/-- C3 fails as stated: after one, two and three advancing iterations from
frame index 0 the frame index is not 1, 2, 0, neither at the end of the
iterations nor when it is read for the draw. -/
theorem three_advances_not_1_2_0 :
    List.map (fun n => (loop { m_width := 210, m_height := 280 } { calls := [] }
        initialState (List.replicate n [keyDown SDLK_DOWN])).map (fun p => p.1.frame))
        [1, 2, 3]
      ≠ [some 1, some 2, some 0] ∧
    List.map (fun n => ((loop { m_width := 210, m_height := 280 } { calls := [] }
        initialState (List.replicate n [keyDown SDLK_DOWN])).bind
          (fun p => pollEvents p.1 [keyDown SDLK_DOWN])).map (fun st => st.frame))
        [0, 1, 2]
      ≠ [some 1, some 2, some 0] := by
  decide

/-! ## Quit and advance iterations -/

/-- C4 (as amended): an iteration whose first polled event is a quit request
ends with `shouldQuit = true`, so the loop runs no further iteration; the
iteration itself is not cut short: the events polled after the quit request
are handled as usual (the frame index at the draw is `frame` plus the number
of `SDLK_DOWN` key-downs among them, and `pos` has moved by 10 for each), and
the iteration still issues its clear, one draw call and its present. -/
theorem quit_iteration (tileSet : Image) (renderer : Renderer) (st : LoopState)
    (event : SDL_Event) (events : List SDL_Event) (hq : SDL_QUIT = event.type)
    (hmax : st.frame + (advances events : Int) ≤ INT_MAX) :
    ∃ st1 rect,
      pollEvents st (event :: events) = some st1 ∧
      st1.shouldQuit = true ∧
      st1.frame = st.frame + (advances events : Int) ∧
      st1.pos = (if advances events = 0 then st.pos
        else (st.pos + 10 * advances events) % 2 ^ 32) ∧
      walkSheet.GetTile (toUInt32 (tile st1.frame)) = some rect ∧
      iteration tileSet renderer st (event :: events)
        = some (cycle st1, { calls := renderer.calls ++ frameCalls rect st1.pos }) ∧
      (cycle st1).shouldQuit = true ∧
      drawCalls (frameCalls rect st1.pos) = 1 ∧
      ∀ later, loop tileSet { calls := renderer.calls ++ frameCalls rect st1.pos }
          (cycle st1) later
        = some (cycle st1, { calls := renderer.calls ++ frameCalls rect st1.pos }) := by
  have hadv := advances_of_quit hq events
  obtain ⟨st1, hp⟩ := pollEvents_isSome (event :: events) st (by rw [hadv]; exact hmax)
  obtain ⟨h1, h2, h3⟩ := pollEvents_some hp
  obtain ⟨rect, hrect, hit⟩ := iteration_of_poll tileSet renderer hp
  have hquit : st1.shouldQuit = true := by
    rw [h3]
    simp [isQuit, hq]
  have hcq : (cycle st1).shouldQuit = true := by rw [cycle_shouldQuit, hquit]
  refine ⟨st1, rect, hp, hquit, ?_, ?_, hrect, hit, hcq, rfl, ?_⟩
  · rw [h1, hadv]
  · rw [h2, hadv]
  · intro later
    cases later with
    | nil => rfl
    | cons events1 later1 =>
      unfold loop
      rw [if_pos hcq]

/-- The hypotheses of `quit_iteration` hold for the initial state and the
events quit, `SDLK_DOWN`: the iteration advances once and draws once. -/
theorem quit_iteration_witness :
    SDL_QUIT = quitEvent.type ∧
    initialState.frame + (advances [keyDown SDLK_DOWN] : Int) ≤ INT_MAX ∧
    ∃ st1 rect,
      pollEvents initialState (quitEvent :: [keyDown SDLK_DOWN]) = some st1 ∧
      st1.shouldQuit = true ∧
      st1.frame = initialState.frame + (advances [keyDown SDLK_DOWN] : Int) ∧
      st1.pos = (if advances [keyDown SDLK_DOWN] = 0 then initialState.pos
        else (initialState.pos + 10 * advances [keyDown SDLK_DOWN]) % 2 ^ 32) ∧
      walkSheet.GetTile (toUInt32 (tile st1.frame)) = some rect ∧
      iteration { m_width := 210, m_height := 280 } { calls := [] } initialState
          (quitEvent :: [keyDown SDLK_DOWN])
        = some (cycle st1, { calls := [] ++ frameCalls rect st1.pos }) ∧
      (cycle st1).shouldQuit = true ∧
      drawCalls (frameCalls rect st1.pos) = 1 ∧
      ∀ later, loop { m_width := 210, m_height := 280 }
          { calls := [] ++ frameCalls rect st1.pos } (cycle st1) later
        = some (cycle st1, { calls := [] ++ frameCalls rect st1.pos }) :=
  ⟨by decide, by decide,
    quit_iteration { m_width := 210, m_height := 280 } { calls := [] } initialState
      quitEvent [keyDown SDLK_DOWN] (by decide) (by decide)⟩

/-- C4 fails as stated: from the initial state, the iteration that polls a
quit request alone issues one draw call, not zero, and the iteration that
polls a quit request followed by an `SDLK_DOWN` key-down ends with
`frame = 1` and `pos = 10`. -/
theorem quit_iteration_still_draws :
    (∃ st2 renderer1,
      iteration { m_width := 210, m_height := 280 } { calls := [] } initialState
        [quitEvent] = some (st2, renderer1) ∧
      st2.shouldQuit = true ∧ drawCalls renderer1.calls = 1 ∧
      drawCalls renderer1.calls ≠ 0) ∧
    (∃ st2 renderer1,
      iteration { m_width := 210, m_height := 280 } { calls := [] } initialState
        [quitEvent, keyDown SDLK_DOWN] = some (st2, renderer1) ∧
      st2.frame = 1 ∧ st2.pos = 10 ∧
      (st2.frame ≠ initialState.frame ∧ st2.pos ≠ initialState.pos)) := by
  refine ⟨⟨_, _, rfl, ?_⟩, ⟨_, _, rfl, ?_⟩⟩ <;> decide

/-- C5 (as amended): for every loop state with `frame < INT_MAX`, an iteration
that drains exactly one key-down of `SDLK_DOWN` advances once, so that at the
draw `frame` is `frame + 1` and `pos` is `(pos + 10) mod 2 ^ 32`, which is
`pos + 10` when that fits 32 bits; it issues exactly one draw call, between a
clear and a present, whose source rectangle is `GetTile` of the tile of
`frame + 1`; the wrap check then ends the iteration. -/
theorem advance_iteration (tileSet : Image) (renderer : Renderer) (st : LoopState)
    (event : SDL_Event) (hk : SDL_KEYDOWN = event.type) (hd : event.sym = SDLK_DOWN)
    (hmax : st.frame < INT_MAX) :
    ∃ rect,
      walkSheet.GetTile (toUInt32 (tile (st.frame + 1))) = some rect ∧
      pollEvents st [event] = some
        { frame := st.frame + 1, pos := (st.pos + 10) % 2 ^ 32,
          shouldQuit := st.shouldQuit } ∧
      (st.pos + 10 < 2 ^ 32 → (st.pos + 10) % 2 ^ 32 = st.pos + 10) ∧
      iteration tileSet renderer st [event] = some
        (cycle { frame := st.frame + 1, pos := (st.pos + 10) % 2 ^ 32,
                 shouldQuit := st.shouldQuit },
         { calls := renderer.calls ++ frameCalls rect ((st.pos + 10) % 2 ^ 32) }) ∧
      drawCalls (frameCalls rect ((st.pos + 10) % 2 ^ 32)) = 1 := by
  have ha := isAdvance_of_keyDown hk hd
  have hp : pollEvents st [event] = some
      { frame := st.frame + 1, pos := (st.pos + 10) % 2 ^ 32,
        shouldQuit := st.shouldQuit } := by
    unfold pollEvents
    rw [handleEvent_eq, if_pos ha, if_pos hmax]
    rfl
  obtain ⟨rect, hrect, hit⟩ := iteration_of_poll tileSet renderer hp
  exact ⟨rect, hrect, hp, fun h => Nat.mod_eq_of_lt h, hit, rfl⟩

/-- The hypotheses of `advance_iteration` hold for the initial state and an
`SDLK_DOWN` key-down: frame 1 and offset 10 at the draw, tile 2 drawn. -/
theorem advance_iteration_witness :
    SDL_KEYDOWN = (keyDown SDLK_DOWN).type ∧ (keyDown SDLK_DOWN).sym = SDLK_DOWN ∧
    initialState.frame < INT_MAX ∧ initialState.pos + 10 < 2 ^ 32 ∧
    ∃ rect,
      walkSheet.GetTile (toUInt32 (tile (initialState.frame + 1))) = some rect ∧
      pollEvents initialState [keyDown SDLK_DOWN] = some
        { frame := initialState.frame + 1, pos := (initialState.pos + 10) % 2 ^ 32,
          shouldQuit := initialState.shouldQuit } ∧
      (initialState.pos + 10) % 2 ^ 32 = initialState.pos + 10 ∧
      iteration { m_width := 210, m_height := 280 } { calls := [] } initialState
          [keyDown SDLK_DOWN] = some
        (cycle { frame := initialState.frame + 1,
                 pos := (initialState.pos + 10) % 2 ^ 32,
                 shouldQuit := initialState.shouldQuit },
         { calls := [] ++ frameCalls rect ((initialState.pos + 10) % 2 ^ 32) }) ∧
      drawCalls (frameCalls rect ((initialState.pos + 10) % 2 ^ 32)) = 1 := by
  refine ⟨by decide, by decide, by decide, by decide, ?_⟩
  obtain ⟨rect, h1, h2, h3, h4, h5⟩ :=
    advance_iteration { m_width := 210, m_height := 280 } { calls := [] } initialState
      (keyDown SDLK_DOWN) (by decide) (by decide) (by decide)
  exact ⟨rect, h1, h2, h3 (by decide), h4, h5⟩

/-- C5 fails as stated: 429496729 advancing iterations take the loop from its
initial state to `frame = 1`, `pos = 4294967290`, and there the iteration
that drains one `SDLK_DOWN` key-down draws with `pos = 4`, not with
`pos + 10 = 4294967300`. -/
theorem advance_iteration_pos_wraps :
    (∃ renderer1,
      loop { m_width := 210, m_height := 280 } { calls := [] } initialState
          (List.replicate 429496729 [keyDown SDLK_DOWN])
        = some ({ frame := 1, pos := 4294967290, shouldQuit := false }, renderer1)) ∧
    pollEvents { frame := 1, pos := 4294967290, shouldQuit := false }
        [keyDown SDLK_DOWN]
      = some { frame := 2, pos := 4, shouldQuit := false } ∧
    (4 : Nat) ≠ 4294967290 + 10 ∧
    iteration { m_width := 210, m_height := 280 } { calls := [] }
        { frame := 1, pos := 4294967290, shouldQuit := false } [keyDown SDLK_DOWN]
      = some ({ frame := 0, pos := 4, shouldQuit := false },
          { calls := frameCalls { x := 140, y := 0, w := 70, h := 70 } 4 }) := by
  refine ⟨?_, by decide, by decide, by decide⟩
  obtain ⟨renderer1, h⟩ := loop_replicate_advance { m_width := 210, m_height := 280 }
    429496729 { calls := [] } 0 0 (Or.inl rfl) (by norm_num)
  have e1 : ((0 : Int) + ((429496729 : Nat) : Int)) % 2 = 1 := by norm_num
  have e2 : (0 + 10 * 429496729) % 2 ^ 32 = 4294967290 := by norm_num
  rw [e1, e2] at h
  exact ⟨renderer1, h⟩

/-! ## The scroll offset -/

/-- C6 (as amended): an `SDLK_DOWN` key-down sets `pos` to
`(pos + 10) mod 2 ^ 32`, which exceeds the old `pos` by exactly 10 whenever
`pos + 10 < 2 ^ 32`; every other event and the wrap check of `frame` leave
`pos` as it is, so over an iteration `pos` moves by 10 per `SDLK_DOWN`
key-down, modulo `2 ^ 32`, and nothing else in the loop lowers or resets it. -/
theorem pos_step (st : LoopState) (event : SDL_Event) (hk : SDL_KEYDOWN = event.type)
    (hd : event.sym = SDLK_DOWN) (hmax : st.frame < INT_MAX) :
    (∃ st1, handleEvent st event = some st1 ∧ st1.pos = (st.pos + 10) % 2 ^ 32 ∧
      (st.pos + 10 < 2 ^ 32 → st1.pos = st.pos + 10 ∧ st.pos < st1.pos)) ∧
    (∀ other st2, isAdvance other = false → handleEvent st other = some st2 →
      st2.pos = st.pos) ∧
    (cycle st).pos = st.pos ∧
    (∀ (tileSet : Image) (renderer renderer1 : Renderer) (events : List SDL_Event)
        (st2 : LoopState),
      iteration tileSet renderer st events = some (st2, renderer1) →
      st2.pos = (if advances events = 0 then st.pos
        else (st.pos + 10 * advances events) % 2 ^ 32)) := by
  have ha := isAdvance_of_keyDown hk hd
  refine ⟨⟨_, by rw [handleEvent_eq, if_pos ha, if_pos hmax], rfl, ?_⟩, ?_, cycle_pos st, ?_⟩
  · intro h
    have hm : (st.pos + 10) % 2 ^ 32 = st.pos + 10 := Nat.mod_eq_of_lt h
    show (st.pos + 10) % 2 ^ 32 = st.pos + 10 ∧ st.pos < (st.pos + 10) % 2 ^ 32
    rw [hm]
    exact ⟨rfl, by omega⟩
  · intro other st2 hother h
    rw [handleEvent_eq, if_neg (by simp [hother])] at h
    by_cases hq : isQuit other = true
    · rw [if_pos hq] at h
      simp only [Option.some.injEq] at h
      rw [← h]
    · rw [if_neg hq] at h
      simp only [Option.some.injEq] at h
      rw [← h]
  · intro tileSet renderer renderer1 events st2 h
    obtain ⟨st1, rect, hp, -, hst2, -⟩ := iteration_some h
    obtain ⟨-, h2, -⟩ := pollEvents_some hp
    rw [hst2, cycle_pos, h2]

/-- The hypotheses of `pos_step` hold for the initial state and an `SDLK_DOWN`
key-down, which moves `pos` from 0 to 10. -/
theorem pos_step_witness :
    SDL_KEYDOWN = (keyDown SDLK_DOWN).type ∧ (keyDown SDLK_DOWN).sym = SDLK_DOWN ∧
    initialState.frame < INT_MAX ∧ initialState.pos + 10 < 2 ^ 32 ∧
    ∃ st1, handleEvent initialState (keyDown SDLK_DOWN) = some st1 ∧
      st1.pos = initialState.pos + 10 ∧ initialState.pos < st1.pos := by
  refine ⟨by decide, by decide, by decide, by decide, ?_⟩
  obtain ⟨⟨st1, h1, -, h3⟩, -⟩ :=
    pos_step initialState (keyDown SDLK_DOWN) (by decide) (by decide) (by decide)
  exact ⟨st1, h1, h3 (by decide)⟩

/-- C6 fails as stated: 429496729 iterations that each drain one `SDLK_DOWN`
key-down take the loop from its initial state to `pos = 4294967290`, and the
next `SDLK_DOWN` key-down sets `pos` to 4, below the old value. -/
theorem pos_wraps :
    (∃ renderer1,
      loop { m_width := 210, m_height := 280 } { calls := [] } initialState
          (List.replicate 429496729 [keyDown SDLK_DOWN])
        = some ({ frame := 1, pos := 4294967290, shouldQuit := false }, renderer1)) ∧
    handleEvent { frame := 1, pos := 4294967290, shouldQuit := false } (keyDown SDLK_DOWN)
      = some { frame := 2, pos := 4, shouldQuit := false } ∧
    ¬ ((4294967290 : Nat) < 4) := by
  refine ⟨?_, by decide, by decide⟩
  obtain ⟨renderer1, h⟩ := loop_replicate_advance { m_width := 210, m_height := 280 }
    429496729 { calls := [] } 0 0 (Or.inl rfl) (by norm_num)
  have e1 : ((0 : Int) + ((429496729 : Nat) : Int)) % 2 = 1 := by norm_num
  have e2 : (0 + 10 * 429496729) % 2 ^ 32 = 4294967290 := by norm_num
  rw [e1, e2] at h
  exact ⟨renderer1, h⟩

/-! ## The tile of a frame -/

/-- C7: for a frame index in `[0, 3)` the tile the loop draws is 2 when the
index is 1 and the index itself otherwise, so 0 gives 0 and 2 gives 2; the
`uint32_t` handed to `GetTile` is that same number. -/
theorem tile_remap (frame : Int) (h0 : 0 ≤ frame) (h3 : frame < 3) :
    (frame = 1 → tile frame = 2) ∧ (frame ≠ 1 → tile frame = frame) ∧
    ((toUInt32 (tile frame) : Nat) : Int) = tile frame ∧
    tile 0 = 0 ∧ tile 1 = 2 ∧ tile 2 = 2 := by
  refine ⟨?_, ?_, ?_, by decide, by decide, by decide⟩
  · intro h
    subst h
    decide
  · intro h
    unfold tile
    rw [if_neg (fun h1 => h h1.symm)]
  · have hcases : frame = 0 ∨ frame = 1 ∨ frame = 2 := by omega
    rcases hcases with h | h | h <;> subst h <;> decide

/-- The hypotheses of `tile_remap` hold for the frame index 1, whose tile
is 2. -/
theorem tile_remap_witness :
    (0 : Int) ≤ 1 ∧ (1 : Int) < 3 ∧ tile 1 = 2 ∧
    ((toUInt32 (tile 1) : Nat) : Int) = tile 1 :=
  ⟨by decide, by decide, (tile_remap 1 (by decide) (by decide)).1 rfl,
    (tile_remap 1 (by decide) (by decide)).2.2.1⟩

/-! ## The frame index at the draw -/

/-- C8 (as amended): in every state the loop reaches from its initial state,
whatever events its iterations drained, the frame index is 0 or 1 and `pos`
is a value in `[0, 2 ^ 32)` when the next iteration starts; the frame index
that iteration reads for its draw is the starting index plus the number of
`SDLK_DOWN` key-downs it drained, which is non-negative and is below 3
exactly when that sum is at most 2. -/
theorem reachable_frame (tileSet : Image) (renderer renderer1 : Renderer)
    (batches : List (List SDL_Event)) (st : LoopState) (events : List SDL_Event)
    (hrun : loop tileSet renderer initialState batches = some (st, renderer1))
    (hmax : st.frame + (advances events : Int) ≤ INT_MAX) :
    (st.frame = 0 ∨ st.frame = 1) ∧ 0 ≤ (st.pos : Int) ∧ st.pos < 2 ^ 32 ∧
    ∃ st1, pollEvents st events = some st1 ∧
      st1.frame = st.frame + (advances events : Int) ∧ 0 ≤ st1.frame ∧
      (st1.frame < 3 ↔ st.frame + (advances events : Int) ≤ 2) ∧
      st1.pos < 2 ^ 32 := by
  obtain ⟨hf, hpos⟩ := loop_inv tileSet batches renderer renderer1 initialState st hrun
    (Or.inl rfl) (by decide)
  obtain ⟨st1, hp⟩ := pollEvents_isSome events st hmax
  obtain ⟨h1, h2, -⟩ := pollEvents_some hp
  refine ⟨hf, by omega, hpos, st1, hp, h1, by omega, by omega, ?_⟩
  rw [h2]
  split
  · exact hpos
  · exact Nat.mod_lt _ (by norm_num)

/-- The hypotheses of `reachable_frame` hold after one advancing iteration,
for a next iteration that drains one `SDLK_DOWN` key-down: the loop is then at
frame 1 and reads frame 2 for the draw. -/
theorem reachable_frame_witness :
    loop { m_width := 210, m_height := 280 } { calls := [] } initialState
        [[keyDown SDLK_DOWN]]
      = some ({ frame := 1, pos := 10, shouldQuit := false },
          { calls := frameCalls { x := 140, y := 0, w := 70, h := 70 } 10 }) ∧
    (1 : Int) + (advances [keyDown SDLK_DOWN] : Int) ≤ INT_MAX ∧
    ∃ st1, pollEvents { frame := 1, pos := 10, shouldQuit := false } [keyDown SDLK_DOWN]
        = some st1 ∧
      st1.frame = 1 + (advances [keyDown SDLK_DOWN] : Int) ∧ st1.frame < 3 := by
  refine ⟨by decide, by decide, ?_⟩
  obtain ⟨-, -, -, st1, hp, h1, -, h3, -⟩ :=
    reachable_frame { m_width := 210, m_height := 280 } { calls := [] }
      { calls := frameCalls { x := 140, y := 0, w := 70, h := 70 } 10 }
      [[keyDown SDLK_DOWN]] { frame := 1, pos := 10, shouldQuit := false }
      [keyDown SDLK_DOWN] (by decide) (by decide)
  exact ⟨st1, hp, h1, h3.mpr (by decide)⟩

/-- C8 fails as stated: the first iteration, started in the initial state,
that drains three `SDLK_DOWN` key-downs reads the frame index 3 for its draw,
draws tile 3, the rectangle `{0, 70, 70, 70}`, and only then resets the index. -/
theorem frame_three_at_draw :
    loop { m_width := 210, m_height := 280 } { calls := [] } initialState []
      = some (initialState, { calls := [] }) ∧
    pollEvents initialState [keyDown SDLK_DOWN, keyDown SDLK_DOWN, keyDown SDLK_DOWN]
      = some { frame := 3, pos := 30, shouldQuit := false } ∧
    ¬ ((3 : Int) < 3) ∧
    iteration { m_width := 210, m_height := 280 } { calls := [] } initialState
        [keyDown SDLK_DOWN, keyDown SDLK_DOWN, keyDown SDLK_DOWN]
      = some ({ frame := 0, pos := 30, shouldQuit := false },
          { calls := frameCalls { x := 0, y := 70, w := 70, h := 70 } 30 }) ∧
    walkSheet.GetTile 3 = some { x := 0, y := 70, w := 70, h := 70 } := by
  decide

/-! ## The calls of an iteration -/

/-- C9 (as amended): every iteration of the loop that returns issues, in this
order, the colour `0xFF, 0xAA, 0xFF, 0x10` and one clear, one draw call and one
present. The source rectangle of the draw is `rect = GetTile(tile)` for the
70 x 70 x 3 sheet; its destination has `x = 0`, `w = rect.w`, `h = rect.h` and
`y` the value of `pos` as a signed 32-bit `int`, which is `pos` when
`pos < 2 ^ 31`. `Image::Render` takes `w` and `h` from the clip when one is
given and from the surface otherwise. -/
theorem iteration_calls (tileSet : Image) (renderer : Renderer) (st : LoopState)
    (events : List SDL_Event) (hmax : st.frame + (advances events : Int) ≤ INT_MAX) :
    (∃ st1 rect,
      pollEvents st events = some st1 ∧
      walkSheet.GetTile (toUInt32 (tile st1.frame)) = some rect ∧
      iteration tileSet renderer st events = some
        (cycle st1,
         { calls := renderer.calls ++
            [RenderCall.SetRenderDrawColor 0xFF 0xAA 0xFF 0x10,
             RenderCall.RenderClear,
             RenderCall.RenderCopy (some rect)
               (some { x := 0, y := toInt st1.pos, w := rect.w, h := rect.h }),
             RenderCall.RenderPresent] }) ∧
      (st1.pos < 2 ^ 31 → toInt st1.pos = (st1.pos : Int))) ∧
    (∀ (image : Image) (r : Renderer) (x y : Nat) (clip : SDL_Rect),
      image.Render r x y (some clip)
        = r.Copy (some clip) (some { x := toInt x, y := toInt y, w := clip.w, h := clip.h })) ∧
    (∀ (image : Image) (r : Renderer) (x y : Nat),
      image.Render r x y none
        = r.Copy none (some { x := toInt x, y := toInt y, w := (image.m_width : Int),
                              h := (image.m_height : Int) })) := by
  obtain ⟨st1, hp⟩ := pollEvents_isSome events st hmax
  obtain ⟨rect, hrect, hit⟩ := iteration_of_poll tileSet renderer hp
  exact ⟨⟨st1, rect, hp, hrect, hit, fun h => toInt_of_lt h⟩,
    fun _ _ _ _ _ => rfl, fun _ _ _ _ => rfl⟩

/-- The hypothesis of `iteration_calls` holds for the initial state and one
`SDLK_DOWN` key-down: tile 2 is drawn at `(0, 10)`. -/
theorem iteration_calls_witness :
    initialState.frame + (advances [keyDown SDLK_DOWN] : Int) ≤ INT_MAX ∧
    iteration { m_width := 210, m_height := 280 } { calls := [] } initialState
        [keyDown SDLK_DOWN] = some
      ({ frame := 1, pos := 10, shouldQuit := false },
       { calls :=
          [RenderCall.SetRenderDrawColor 0xFF 0xAA 0xFF 0x10,
           RenderCall.RenderClear,
           RenderCall.RenderCopy (some { x := 140, y := 0, w := 70, h := 70 })
             (some { x := 0, y := 10, w := 70, h := 70 }),
           RenderCall.RenderPresent] }) := by
  refine ⟨by decide, ?_⟩
  obtain ⟨⟨st1, rect, hp, hrect, hit, -⟩, -⟩ :=
    iteration_calls { m_width := 210, m_height := 280 } { calls := [] } initialState
      [keyDown SDLK_DOWN] (by decide)
  have hp1 : pollEvents initialState [keyDown SDLK_DOWN]
      = some { frame := 1, pos := 10, shouldQuit := false } := by decide
  rw [hp1] at hp
  simp only [Option.some.injEq] at hp
  subst hp
  have hrect1 : walkSheet.GetTile (toUInt32 (tile 1))
      = some { x := 140, y := 0, w := 70, h := 70 } := by decide
  rw [hrect1] at hrect
  simp only [Option.some.injEq] at hrect
  subst hrect
  exact hit

/-- C9 fails as stated: 214748365 advancing iterations take the loop from its
initial state to `pos = 2147483650`, and the next iteration, with no event
pending, places its draw at `y = -2147483646`, not at `y = pos`. -/
theorem draw_position_negative :
    (∃ renderer1,
      loop { m_width := 210, m_height := 280 } { calls := [] } initialState
          (List.replicate 214748365 [keyDown SDLK_DOWN])
        = some ({ frame := 1, pos := 2147483650, shouldQuit := false }, renderer1)) ∧
    iteration { m_width := 210, m_height := 280 } { calls := [] }
        { frame := 1, pos := 2147483650, shouldQuit := false } []
      = some ({ frame := 1, pos := 2147483650, shouldQuit := false },
          { calls :=
            [RenderCall.SetRenderDrawColor 0xFF 0xAA 0xFF 0x10,
             RenderCall.RenderClear,
             RenderCall.RenderCopy (some { x := 140, y := 0, w := 70, h := 70 })
               (some { x := 0, y := -2147483646, w := 70, h := 70 }),
             RenderCall.RenderPresent] }) ∧
    (-2147483646 : Int) ≠ ((2147483650 : Nat) : Int) := by
  refine ⟨?_, by decide, by decide⟩
  obtain ⟨renderer1, h⟩ := loop_replicate_advance { m_width := 210, m_height := 280 }
    214748365 { calls := [] } 0 0 (Or.inl rfl) (by norm_num)
  have e1 : ((0 : Int) + ((214748365 : Nat) : Int)) % 2 = 1 := by norm_num
  have e2 : (0 + 10 * 214748365) % 2 ^ 32 = 2147483650 := by norm_num
  rw [e1, e2] at h
  exact ⟨renderer1, h⟩

/-! ## The frame index between iterations -/

/-- C10: an iteration started with `frame >= 0` that does not take `frame`
past `INT_MAX` returns with the frame index 0 or 1; and in a run from the
initial state in which every iteration drains at most one `SDLK_DOWN`
key-down, the loop returns, every iteration reads a frame index in
`{0, 1, 2}` for its draw, and the tile it draws is 0 or 2, never 1. -/
theorem frame_after_iteration (tileSet : Image) (renderer : Renderer) (st : LoopState)
    (events : List SDL_Event) (h0 : 0 ≤ st.frame)
    (hmax : st.frame + (advances events : Int) ≤ INT_MAX) :
    (∃ st2 renderer1, iteration tileSet renderer st events = some (st2, renderer1) ∧
      (st2.frame = 0 ∨ st2.frame = 1)) ∧
    (∀ batches : List (List SDL_Event), (∀ evs ∈ batches, advances evs ≤ 1) →
      ∃ s r, loop tileSet renderer initialState batches = some (s, r) ∧
        ∀ evs, advances evs ≤ 1 →
          ∃ s1 rect, pollEvents s evs = some s1 ∧
            (s1.frame = 0 ∨ s1.frame = 1 ∨ s1.frame = 2) ∧
            (tile s1.frame = 0 ∨ tile s1.frame = 2) ∧ tile s1.frame ≠ 1 ∧
            walkSheet.GetTile (toUInt32 (tile s1.frame)) = some rect ∧
            (rect = { x := 0, y := 0, w := 70, h := 70 } ∨
              rect = { x := 140, y := 0, w := 70, h := 70 }) ∧
            iteration tileSet r s evs
              = some (cycle s1, { calls := r.calls ++ frameCalls rect s1.pos })) := by
  constructor
  · obtain ⟨st1, hp⟩ := pollEvents_isSome events st hmax
    obtain ⟨h1, -, -⟩ := pollEvents_some hp
    obtain ⟨rect, -, hit⟩ := iteration_of_poll tileSet renderer hp
    exact ⟨_, _, hit, cycle_frame st1 (by rw [h1]; omega)⟩
  · intro batches hb
    obtain ⟨s, r, hrun⟩ := loop_isSome_of_single tileSet batches hb renderer initialState
      (Or.inl rfl) (by decide)
    obtain ⟨hf, -⟩ := loop_inv tileSet batches renderer r initialState s hrun
      (Or.inl rfl) (by decide)
    refine ⟨s, r, hrun, ?_⟩
    intro evs hevs
    obtain ⟨s1, hp⟩ := pollEvents_isSome evs s (by
      unfold INT_MAX
      omega)
    obtain ⟨h1, -, -⟩ := pollEvents_some hp
    obtain ⟨rect, hrect, hit⟩ := iteration_of_poll tileSet r hp
    have hcases : s1.frame = 0 ∨ s1.frame = 1 ∨ s1.frame = 2 := by omega
    refine ⟨s1, rect, hp, hcases, ?_, ?_, hrect, ?_, hit⟩
    · rcases hcases with h | h | h <;> rw [h] <;> decide
    · rcases hcases with h | h | h <;> rw [h] <;> decide
    · rcases hcases with h | h | h
      · rw [h] at hrect
        left
        have e : walkSheet.GetTile (toUInt32 (tile 0))
            = some { x := 0, y := 0, w := 70, h := 70 } := by decide
        rw [e] at hrect
        exact (Option.some.inj hrect).symm
      · rw [h] at hrect
        right
        have e : walkSheet.GetTile (toUInt32 (tile 1))
            = some { x := 140, y := 0, w := 70, h := 70 } := by decide
        rw [e] at hrect
        exact (Option.some.inj hrect).symm
      · rw [h] at hrect
        right
        have e : walkSheet.GetTile (toUInt32 (tile 2))
            = some { x := 140, y := 0, w := 70, h := 70 } := by decide
        rw [e] at hrect
        exact (Option.some.inj hrect).symm

/-- The hypotheses of `frame_after_iteration` hold for the state `frame = 1`
and two `SDLK_DOWN` key-downs, and the run of two single-advance iterations is
followed by an iteration that reads a frame index among 0, 1, 2. -/
theorem frame_after_iteration_witness :
    (0 : Int) ≤ (LoopState.mk 1 10 false).frame ∧
    (LoopState.mk 1 10 false).frame
      + (advances [keyDown SDLK_DOWN, keyDown SDLK_DOWN] : Int) ≤ INT_MAX ∧
    (∃ st2 renderer1,
      iteration { m_width := 210, m_height := 280 } { calls := [] }
        (LoopState.mk 1 10 false) [keyDown SDLK_DOWN, keyDown SDLK_DOWN]
        = some (st2, renderer1) ∧
      (st2.frame = 0 ∨ st2.frame = 1)) ∧
    (∀ evs ∈ [[keyDown SDLK_DOWN], [keyDown SDLK_DOWN]], advances evs ≤ 1) ∧
    advances [keyDown SDLK_DOWN] ≤ 1 ∧
    ∃ s r, loop { m_width := 210, m_height := 280 } { calls := [] } initialState
        [[keyDown SDLK_DOWN], [keyDown SDLK_DOWN]] = some (s, r) ∧
      ∃ s1, pollEvents s [keyDown SDLK_DOWN] = some s1 ∧
        (s1.frame = 0 ∨ s1.frame = 1 ∨ s1.frame = 2) ∧
        (tile s1.frame = 0 ∨ tile s1.frame = 2) := by
  have hw := frame_after_iteration { m_width := 210, m_height := 280 } { calls := [] }
    (LoopState.mk 1 10 false) [keyDown SDLK_DOWN, keyDown SDLK_DOWN]
    (by decide) (by decide)
  have hb : ∀ evs ∈ [[keyDown SDLK_DOWN], [keyDown SDLK_DOWN]], advances evs ≤ 1 := by
    decide
  refine ⟨by decide, by decide, hw.1, hb, by decide, ?_⟩
  obtain ⟨s, r, hrun, hnext⟩ := hw.2 _ hb
  obtain ⟨s1, rect, hp, hf, ht, -⟩ := hnext [keyDown SDLK_DOWN] (by decide)
  exact ⟨s, r, hrun, s1, hp, hf, ht⟩

end Sdl
